import Mathlib

/-!
Verification development for a small weather-data repository consisting of
two Flask services:

* `CWB8.1.py` — periodically fetches station observations from a remote API,
  normalizes timestamps to UTC+8 minute-resolution keys, and stores them in a
  SQLite table whose `obs_date` column carries a `UNIQUE` constraint
  (`INSERT OR IGNORE`).
* `weather_v8.1.py` — ingests uploaded monthly CSV files (two-row headers,
  fuzzy column names, filename-encoded year/month) into a second SQLite table
  (no uniqueness constraint; the caller pre-filters against existing dates),
  and serves a growing-degree-day (GDD) threshold sweep over three date
  ranges.

Floating-point numbers are modelled as exact rationals (ℚ).  SQLite relations
are modelled as lists of records in insertion order.  Python exceptions that
escape a function are modelled with explicit error constructors.
-/

set_option maxRecDepth 8000

/-! ## Rounding: Python `round(x, 2)` (banker's rounding, half to even) -/

/-- Round a rational to the nearest integer, ties to the even integer.
Models Python's built-in `round` on the integer grid. -/
def halfEvenZ (q : ℚ) : ℤ :=
  if q - ⌊q⌋ < 1/2 then ⌊q⌋
  else if (1:ℚ)/2 < q - ⌊q⌋ then ⌊q⌋ + 1
  else if ⌊q⌋ % 2 = 0 then ⌊q⌋ else ⌊q⌋ + 1

/-- Python `round(q, 2)`: round to 2 decimal places, ties to even. -/
def round2 (q : ℚ) : ℚ := (halfEvenZ (100 * q) : ℚ) / 100

theorem halfEvenZ_le (q : ℚ) : (⌊q⌋ : ℤ) ≤ halfEvenZ q := by
  unfold halfEvenZ
  split
  · exact le_refl _
  · split
    · exact le_of_lt (lt_add_one _)
    · split
      · exact le_refl _
      · exact le_of_lt (lt_add_one _)

theorem halfEvenZ_le' (q : ℚ) : halfEvenZ q ≤ ⌊q⌋ + 1 := by
  unfold halfEvenZ
  split
  · exact le_of_lt (lt_add_one _)
  · split
    · exact le_refl _
    · split
      · exact le_of_lt (lt_add_one _)
      · exact le_refl _

theorem halfEvenZ_close (q : ℚ) : |(halfEvenZ q : ℚ) - q| ≤ 1/2 := by
  have hfl : (⌊q⌋ : ℚ) ≤ q := Int.floor_le q
  have hfl' : q < (⌊q⌋ : ℚ) + 1 := Int.lt_floor_add_one q
  unfold halfEvenZ
  split
  · rename_i h
    rw [abs_le]
    constructor <;> linarith
  · rename_i h
    push_neg at h
    split
    · rename_i h2
      push_cast
      rw [abs_le]
      constructor <;> linarith
    · rename_i h2
      push_neg at h2
      have heq : q - (⌊q⌋ : ℚ) = 1/2 := le_antisymm h2 h
      split
      · rw [abs_le]; constructor <;> linarith
      · push_cast
        rw [abs_le]
        constructor <;> linarith

theorem halfEvenZ_mono {p q : ℚ} (h : p ≤ q) : halfEvenZ p ≤ halfEvenZ q := by
  rcases lt_or_le ⌊p⌋ ⌊q⌋ with hf | hf
  · calc halfEvenZ p ≤ ⌊p⌋ + 1 := halfEvenZ_le' p
      _ ≤ ⌊q⌋ := by omega
      _ ≤ halfEvenZ q := halfEvenZ_le q
  · have hfe : ⌊p⌋ = ⌊q⌋ := le_antisymm (Int.floor_le_floor h) hf
    have hr : p - ((⌊q⌋ : ℤ) : ℚ) ≤ q - ((⌊q⌋ : ℤ) : ℚ) := by linarith
    unfold halfEvenZ
    rw [hfe]
    by_cases hq1 : q - ((⌊q⌋ : ℤ) : ℚ) < 1/2
    · rw [if_pos (lt_of_le_of_lt hr hq1), if_pos hq1]
    · rw [if_neg hq1]
      by_cases hp1 : p - ((⌊q⌋ : ℤ) : ℚ) < 1/2
      · rw [if_pos hp1]
        split
        · omega
        · split <;> omega
      · rw [if_neg hp1]
        by_cases hq2 : (1:ℚ)/2 < q - ((⌊q⌋ : ℤ) : ℚ)
        · rw [if_pos hq2]
          by_cases hp2 : (1:ℚ)/2 < p - ((⌊q⌋ : ℤ) : ℚ)
          · rw [if_pos hp2]
          · rw [if_neg hp2]
            split <;> omega
        · rw [if_neg hq2]
          have hq : q - ((⌊q⌋ : ℤ) : ℚ) = 1/2 :=
            le_antisymm (not_lt.mp hq2) (not_lt.mp hq1)
          have hp2 : ¬ ((1:ℚ)/2 < p - ((⌊q⌋ : ℤ) : ℚ)) := by
            push_neg
            linarith
          rw [if_neg hp2]

theorem round2_mono {p q : ℚ} (h : p ≤ q) : round2 p ≤ round2 q := by
  unfold round2
  have := halfEvenZ_mono (mul_le_mul_of_nonneg_left h (by norm_num : (0:ℚ) ≤ 100))
  have hcast : ((halfEvenZ (100 * p) : ℚ)) ≤ ((halfEvenZ (100 * q) : ℚ)) := by
    exact_mod_cast this
  linarith

theorem round2_close (q : ℚ) : |round2 q - q| ≤ 1/200 := by
  unfold round2
  have h := halfEvenZ_close (100 * q)
  have h100 : |((halfEvenZ (100 * q) : ℚ)) / 100 - q|
      = |((halfEvenZ (100 * q) : ℚ)) - 100 * q| / 100 := by
    rw [show ((halfEvenZ (100 * q) : ℚ)) / 100 - q
        = (((halfEvenZ (100 * q) : ℚ)) - 100 * q) / 100 by ring]
    rw [abs_div]
    norm_num
  rw [h100]
  linarith

theorem round2_quantized (q : ℚ) : (100 * round2 q).den = 1 := by
  unfold round2
  have : (100 : ℚ) * ((halfEvenZ (100 * q) : ℚ) / 100) = (halfEvenZ (100 * q) : ℚ) := by
    field_simp
  rw [this, Rat.den_intCast]

/-! ## Character/string utilities (models of the Python string operations used) -/

/-- Split a character list at every character satisfying `p`, keeping empty
segments (model of Python `str.split(sep)`). -/
def splitPred (p : Char → Bool) : List Char → List (List Char)
  | [] => [[]]
  | c :: cs =>
    let r := splitPred p cs
    if p c then [] :: r
    else
      match r with
      | [] => [[c]]
      | h :: t => (c :: h) :: t

/-- Python `str.split("-")` : split on a single separator character. -/
def pySplit (sep : Char) (s : String) : List String :=
  (splitPred (fun c => c == sep) s.toList).map String.mk

/-- Python `str.split()` with no argument: tokens separated by whitespace runs. -/
def wsTokens (s : String) : List String :=
  ((splitPred Char.isWhitespace s.toList).filter (fun t => !t.isEmpty)).map String.mk

/-- Python `str.strip()`. -/
def pyStrip (s : String) : String :=
  String.mk (((s.toList.dropWhile Char.isWhitespace).reverse.dropWhile
    Char.isWhitespace).reverse)

/-- `os.path.splitext(s)[0]`: the name with its last dot-extension removed. -/
def dropExt (s : String) : String :=
  let parts := splitPred (fun c => c == '.') s.toList
  if parts.length ≤ 1 then s
  else String.mk (List.intercalate ['.'] parts.dropLast)

/-- Value of a decimal digit character, if it is one. -/
def digitVal (c : Char) : Option ℕ :=
  if '0' ≤ c ∧ c ≤ '9' then some (c.toNat - '0'.toNat) else none

/-- Parse a nonempty all-digit character list as a natural number. -/
def parseNatDigits : List Char → Option ℕ
  | [] => none
  | cs =>
    cs.foldl (fun acc c =>
      match acc, digitVal c with
      | some n, some d => some (10 * n + d)
      | _, _ => none) (some 0)

/-- Python `int(s)`: optional surrounding whitespace, optional sign, digits. -/
def pyInt (s : String) : Option ℤ :=
  match (pyStrip s).toList with
  | '-' :: rest => (parseNatDigits rest).map (fun n => -(n : ℤ))
  | '+' :: rest => (parseNatDigits rest).map (fun n => (n : ℤ))
  | cs => (parseNatDigits cs).map (fun n => (n : ℤ))

/-- Parse an unsigned decimal numeral with optional fractional part
(`"12"`, `"12.5"`, `".5"`, `"12."`). -/
def parseUnsignedQ (cs : List Char) : Option ℚ :=
  match splitPred (fun c => c == '.') cs with
  | [whole] => (parseNatDigits whole).map (fun n => (n : ℚ))
  | [whole, frac] =>
    match whole, frac with
    | [], [] => none
    | [], f =>
      (parseNatDigits f).map (fun n => (n : ℚ) / ((10 : ℚ) ^ f.length))
    | w, [] => (parseNatDigits w).map (fun n => (n : ℚ))
    | w, f =>
      match parseNatDigits w, parseNatDigits f with
      | some a, some b => some ((a : ℚ) + (b : ℚ) / ((10 : ℚ) ^ f.length))
      | _, _ => none
  | _ => none

/-- Python `float(s)` restricted to plain decimal numerals (the only form the
upstream API sends): optional whitespace, optional sign, digits with an
optional fractional part. -/
def pyFloatStr (s : String) : Option ℚ :=
  match (pyStrip s).toList with
  | '-' :: rest => (parseUnsignedQ rest).map (fun q => -q)
  | '+' :: rest => parseUnsignedQ rest
  | cs => parseUnsignedQ cs

/-- Zero-pad a natural number to two digits (Python `"%02d"`-style formatting
for the nonnegative values produced by the date computations). -/
def pad2 (n : ℤ) : String :=
  if 0 ≤ n ∧ n < 10 then "0" ++ toString n else toString n

/-- Pad a year to four digits (`strftime "%Y"`). -/
def pad4 (n : ℤ) : String :=
  if 0 ≤ n ∧ n < 10 then "000" ++ toString n
  else if 0 ≤ n ∧ n < 100 then "00" ++ toString n
  else if 0 ≤ n ∧ n < 1000 then "0" ++ toString n
  else toString n

example : pad2 4 = "04" := by decide
example : pySplit '-' "a-2024-05" = ["a", "2024", "05"] := by decide
example : dropExt "a-2024-05.csv" = "a-2024-05" := by decide
example : pyInt " 12 " = some 12 := by decide
example : pyFloatStr "25.5" = some (51/2) := by with_unfolding_all rfl
example : pyFloatStr "-99" = some (-99) := by with_unfolding_all rfl
example : pyFloatStr "abc" = none := by with_unfolding_all rfl
example : wsTokens " 5 x" = ["5", "x"] := by decide

/-! ## Calendar arithmetic (model of Python `datetime` date handling)

Days are counted from the civil epoch 1970-01-01 (day 0), using the standard
era-based conversion between `(year, month, day)` triples and day numbers.
-/

/-- Day number of a proleptic-Gregorian civil date, epoch 1970-01-01. -/
def daysFromCivil (y m d : ℤ) : ℤ :=
  let y' := y - (if m ≤ 2 then 1 else 0)
  let era := y'.fdiv 400
  let yoe := y' - era * 400
  let mp := (m + 9) % 12
  let doy := (153 * mp + 2).fdiv 5 + d - 1
  let doe := yoe * 365 + yoe.fdiv 4 - yoe.fdiv 100 + doy
  era * 146097 + doe - 719468

/-- Civil date `(year, month, day)` of a day number, epoch 1970-01-01. -/
def civilFromDays (z0 : ℤ) : ℤ × ℤ × ℤ :=
  let z := z0 + 719468
  let era := z.fdiv 146097
  let doe := z - era * 146097
  let yoe := (doe - doe.fdiv 1460 + doe.fdiv 36524 - doe.fdiv 146096).fdiv 365
  let y := yoe + era * 400
  let doy := doe - (365 * yoe + yoe.fdiv 4 - yoe.fdiv 100)
  let mp := (5 * doy + 2).fdiv 153
  let d := doy - (153 * mp + 2).fdiv 5 + 1
  let m := mp + (if mp < 10 then 3 else -9)
  (y + (if m ≤ 2 then 1 else 0), m, d)

example : daysFromCivil 1970 1 1 = 0 := by decide
example : civilFromDays 0 = (1970, 1, 1) := by decide
example : civilFromDays (daysFromCivil 2024 5 2) = (2024, 5, 2) := by decide
example : daysFromCivil 2024 3 1 - daysFromCivil 2024 2 28 = 2 := by decide

/-- Two decimal digits as a number. -/
def dig2 (a b : Char) : Option ℕ := do
  let x ← digitVal a
  let y ← digitVal b
  pure (10 * x + y)

/-- Four decimal digits as a number. -/
def dig4 (a b c d : Char) : Option ℕ := do
  let x ← dig2 a b
  let y ← dig2 c d
  pure (100 * x + y)

/-- Model of Python `datetime.fromisoformat` on offset-aware timestamps of the
form `"YYYY-MM-DDTHH:MM:SS±hh:mm"` (the shape the source feeds it after
replacing a trailing `"Z"` with `"+00:00"`).  Returns
`(year, month, day, hour, minute, offset-in-minutes)`.  Naive timestamps
(no offset) would be converted through the host timezone by the source's
`astimezone` call, which is outside this model, so they parse to `none`. -/
def parseIsoAware (s : String) : Option (ℤ × ℤ × ℤ × ℤ × ℤ × ℤ) :=
  match s.toList with
  | y1 :: y2 :: y3 :: y4 :: '-' :: mo1 :: mo2 :: '-' :: d1 :: d2 :: 'T' ::
      h1 :: h2 :: ':' :: n1 :: n2 :: ':' :: s1 :: s2 :: rest => do
    let y ← dig4 y1 y2 y3 y4
    let mo ← dig2 mo1 mo2
    let d ← dig2 d1 d2
    let h ← dig2 h1 h2
    let n ← dig2 n1 n2
    let sec ← dig2 s1 s2
    guard (1 ≤ mo ∧ mo ≤ 12 ∧ 1 ≤ d ∧ d ≤ 31 ∧ h ≤ 23 ∧ n ≤ 59 ∧ sec ≤ 59)
    match rest with
    | sign :: o1 :: o2 :: ':' :: p1 :: p2 :: [] => do
      let oh ← dig2 o1 o2
      let om ← dig2 p1 p2
      guard (oh ≤ 23 ∧ om ≤ 59)
      match sign with
      | '+' => pure ((y : ℤ), (mo : ℤ), (d : ℤ), (h : ℤ), (n : ℤ), (oh * 60 + om : ℕ))
      | '-' => pure ((y : ℤ), (mo : ℤ), (d : ℤ), (h : ℤ), (n : ℤ), -((oh * 60 + om : ℕ) : ℤ))
      | _ => none
    | _ => none
  | _ => none

/-- Python `s.replace("Z", "+00:00")` for the single-character pattern the
source uses. -/
def replaceZ (s : String) : String :=
  String.mk (s.toList.foldr
    (fun c acc => if c = 'Z' then '+' :: '0' :: '0' :: ':' :: '0' :: '0' :: acc
                  else c :: acc) [])

/-- Timestamp normalization from `CWB8.1.py` `insert_to_db`: replace a UTC
`Z` designator, parse the ISO timestamp, convert to the fixed +08:00 offset,
and format as a minute-resolution key `"YYYY-MM-DD HH:MM"`
(`strftime("%Y-%m-%d %H:%M")`). -/
def normalizeObsTime (s : String) : Option String :=
  match parseIsoAware (replaceZ s) with
  | none => none
  | some (y, mo, d, h, mi, off) =>
    let utcMin := daysFromCivil y mo d * 1440 + h * 60 + mi - off
    let twMin := utcMin + 480
    let day := twMin.fdiv 1440
    let rem := twMin - day * 1440
    let c := civilFromDays day
    some (pad4 c.1 ++ "-" ++ pad2 c.2.1 ++ "-" ++ pad2 c.2.2 ++ " " ++
      pad2 (rem.fdiv 60) ++ ":" ++ pad2 (rem % 60))

example : normalizeObsTime "2024-05-01T20:00:00Z" = some "2024-05-02 04:00" := by decide
example : normalizeObsTime "2024-05-01T12:00:00+08:00" = some "2024-05-01 12:00" := by decide
example : normalizeObsTime "garbage" = none := by decide

/-- Date parsing for the analysis request's range bounds (`"YYYY-MM-DD"`,
the exact ISO date strings the client sends); the value is the civil day
number used for the range comparisons. -/
def parseDate (s : String) : Option ℤ :=
  match s.toList with
  | y1 :: y2 :: y3 :: y4 :: '-' :: m1 :: m2 :: '-' :: d1 :: d2 :: [] => do
    let y ← dig4 y1 y2 y3 y4
    let mo ← dig2 m1 m2
    let d ← dig2 d1 d2
    guard (1 ≤ mo ∧ mo ≤ 12 ∧ 1 ≤ d ∧ d ≤ 31)
    pure (daysFromCivil y mo d)
  | _ => none

example : parseDate "2024-05-01" = some (daysFromCivil 2024 5 1) := by decide
example : parseDate "not-a-date" = none := by decide

/-! ## API ingestion model (`CWB8.1.py`)

JSON scalar values relevant to the weather elements are modelled by `Val`;
the two `WeatherElement` encodings (direct mapping vs list of
`ElementName`/`ElementValue` items) by `WElems`.
-/

/-- A JSON-ish scalar: a number, a string, or Python `None`/absent. -/
inductive Val where
  | vnum (q : ℚ)
  | vstr (s : String)
  | vnone
  deriving DecidableEq

/-- Python `float(v)` on a scalar: numbers pass through, numeric strings are
coerced, everything else raises (modelled as `none`). -/
def pyFloat : Val → Option ℚ
  | .vnum q => some q
  | .vstr s => pyFloatStr s
  | .vnone => none

/-- One item of a list-encoded `WeatherElement`;
`item.get("ElementName")` / `item.get("ElementValue")`. -/
structure WItem where
  name : Option String
  value : Val
  deriving DecidableEq

/-- The station's `WeatherElement` field: dict-encoded, list-encoded, or
absent/other. -/
inductive WElems where
  | wdict (kvs : List (String × Val))
  | wlist (items : List WItem)
  | wnone
  deriving DecidableEq

/-- A station entry of the API payload
(`StationId`, `ObsTime.DateTime`, `WeatherElement`). -/
structure Station where
  stationId : Option String
  obsTime : Option String
  elems : WElems
  deriving DecidableEq

/-- The station of interest (`CWA_STATION_ID` default). -/
def STATION : String := "C0D680"

/-- `records.Station` of the payload: a list, or some other JSON shape. -/
inductive Payload where
  | plist (stations : List Station)
  | pother
  deriving DecidableEq

/-- First value for a key in a dict (association list), Python `dict.get`:
absent keys give `None`. -/
def lookupAssoc (kvs : List (String × Val)) (key : String) : Val :=
  match kvs.find? (fun p => p.1 == key) with
  | some p => p.2
  | none => .vnone

/-- `try: return float(val) except: return val` from the list branch of
`extract_weather_element`. -/
def tryFloatVal (v : Val) : Val :=
  match v with
  | .vstr s =>
    match pyFloatStr s with
    | some q => .vnum q
    | none => .vstr s
  | x => x

/-- `extract_weather_element(station_obj, key)` from `CWB8.1.py`: dict lookup
when `WeatherElement` is a dict; first matching `ElementName` (value coerced
to float when possible) when it is a list; `None` otherwise. -/
def extract_weather_element (st : Station) (key : String) : Val :=
  match st.elems with
  | .wdict kvs => lookupAssoc kvs key
  | .wlist items =>
    match items.find? (fun it => it.name == some key) with
    | some it => tryFloatVal it.value
    | none => .vnone
  | .wnone => .vnone

/-- A row destined for the API-backed store: `(obs_date, temperature,
humidity)` with the minute-resolution local key. -/
structure Row3 where
  obs_date : String
  temperature : ℚ
  humidity : ℚ
  deriving DecidableEq

/-- The per-station body of the row-collection loop in `insert_to_db`:
skip non-matching stations, skip falsy `ObsTime.DateTime`, coerce
temperature and humidity with `float` (skip on failure), normalize the
timestamp (skip on failure), and otherwise produce the row. -/
def rowOfStation (st : Station) : Option Row3 :=
  if st.stationId ≠ some STATION then none
  else
    match st.obsTime with
    | none => none
    | some t =>
      if t = "" then none
      else
        match pyFloat (extract_weather_element st "AirTemperature"),
              pyFloat (extract_weather_element st "RelativeHumidity") with
        | some temp, some rh =>
          match normalizeObsTime t with
          | some key => some ⟨key, temp, rh⟩
          | none => none
        | _, _ => none

/-- The `rows` list accumulated by `insert_to_db` for a station list. -/
def parseRows (stations : List Station) : List Row3 :=
  stations.filterMap rowOfStation

/-- The API-backed store together with the process-wide
`last_update_time` global. -/
structure DbState where
  db : List Row3
  lastUpdate : Option String
  deriving DecidableEq

/-- Keys (`obs_date`) present in a list of stored rows. -/
def keysOf (db : List Row3) : List String := db.map (fun r => r.obs_date)

/-- The `INSERT OR IGNORE` loop of `insert_to_db` over the `UNIQUE obs_date`
column: each row is appended only when its key is absent; the count of
actually-inserted rows is returned alongside the new relation. -/
def insLoop : List Row3 → List Row3 → List Row3 × ℕ
  | db, [] => (db, 0)
  | db, r :: rs =>
    if r.obs_date ∈ keysOf db then insLoop db rs
    else ((insLoop (db ++ [r]) rs).1, (insLoop (db ++ [r]) rs).2 + 1)

/-- `insert_to_db(payload)` from `CWB8.1.py`: returns the inserted count and
the updated process state.  A payload whose `records.Station` is not a list,
or which yields no parsed rows, returns 0 before touching the store or
`last_update_time`; otherwise the rows are inserted with `INSERT OR IGNORE`
and `last_update_time` is overwritten with the current time `now`. -/
def insert_to_db (s : DbState) (p : Payload) (now : String) : ℕ × DbState :=
  match p with
  | .pother => (0, s)
  | .plist stations =>
    let rows := parseRows stations
    if rows = [] then (0, s)
    else
      let p := insLoop s.db rows
      (p.2, { db := p.1, lastUpdate := some now })

example :
    rowOfStation ⟨some "C0D680", some "2024-05-01T20:00:00Z",
      .wdict [("AirTemperature", .vstr "25.5"), ("RelativeHumidity", .vstr "80")]⟩
      = some ⟨"2024-05-02 04:00", 51/2, 80⟩ := by with_unfolding_all rfl
example : rowOfStation ⟨some "X9", some "2024-05-01T20:00:00Z", .wnone⟩ = none := by
  with_unfolding_all rfl
example :
    insert_to_db ⟨[], none⟩
      (.plist [⟨some "C0D680", some "2024-05-01T20:00:00Z",
        .wdict [("AirTemperature", .vnum 25), ("RelativeHumidity", .vnum 80)]⟩]) "T"
      = (1, ⟨[⟨"2024-05-02 04:00", 25, 80⟩], some "T"⟩) := by with_unfolding_all rfl

/-! ## CSV ingestion model (`weather_v8.1.py` `process_csv`)

An uploaded file is modelled after `pandas.read_csv(header=[0,1])`: two
header rows plus data rows of cells.  A cell is an integer (pandas `int64`
columns such as a day-of-month column), a float, a string, or `NaN`.
-/

/-- A parsed CSV cell. -/
inductive Cell where
  | cint (z : ℤ)
  | cnum (q : ℚ)
  | cstr (s : String)
  | cnan
  deriving DecidableEq

/-- Python `str(cell)` as consumed by `build_date`.  Integers print as decimal
numerals, `NaN` prints as `"nan"`.  A float's repr always contains a dot
(`"25.0"`), so `int()` fails on it; the stand-in token `"float"` is likewise
unparseable, which is the only property `build_date` observes. -/
def cellStr : Cell → String
  | .cint z => toString z
  | .cnum _ => "float"
  | .cstr s => s
  | .cnan => "nan"

/-- `NaN` test used by `dropna`. -/
def cellIsNan : Cell → Bool
  | .cnan => true
  | _ => false

/-- A record of the CSV-backed store: day-resolution key plus the four
numeric columns. -/
structure CRec where
  obs_date : String
  temperature : Cell
  humidity : Cell
  tmax : Cell
  tmin : Cell
  deriving DecidableEq

/-- An uploaded CSV after `pandas.read_csv(header=[0,1])`: the two header
rows and the data rows. -/
structure Csv where
  h1 : List String
  h2 : List String
  rows : List (List Cell)
  deriving DecidableEq

/-- Whether `pat` occurs contiguously in `s` (Python `pat in s`). -/
def containsSub (pat : List Char) : List Char → Bool
  | [] => pat.isEmpty
  | c :: tail => pat.isPrefixOf (c :: tail) || containsSub pat tail

/-- Flattened column names: `"_".join(col).strip()` over the zipped two-row
header. -/
def flattenCols (h1 h2 : List String) : List String :=
  (h1.zip h2).map (fun p => pyStrip (p.1 ++ "_" ++ p.2))

/-- `find_col(keywords)` from `process_csv`: the first column whose flattened
name contains any of the keywords; `none` models the raised `KeyError`. -/
def find_col (cols : List String) (kws : List String) : Option ℕ :=
  cols.findIdx? (fun c => kws.any (fun k => containsSub k.toList c.toList))

/-- The message of the `KeyError` raised when no column matches. -/
def keyErrMsg (kws : List String) : String :=
  kws.foldl (fun a k => a ++ " " ++ k) "找不到欄位:"

/-- `build_date(day_val)` from `process_csv`: take the first
whitespace-separated token of `str(day_val).strip()`, parse it with `int`,
and zero-pad; on any failure fall back to day `"01"`. -/
def build_date (year month : String) (day_val : Cell) : String :=
  match wsTokens (pyStrip (cellStr day_val)) with
  | [] => year ++ "-" ++ month ++ "-01"
  | t :: _ =>
    match pyInt t with
    | some d => year ++ "-" ++ month ++ "-" ++ pad2 d
    | none => year ++ "-" ++ month ++ "-01"

/-- Outcome of one `process_csv` call: a normal return carrying the resulting
store and the number of appended records, or an uncaught exception
(`KeyError` from `find_col`) escaping `process_csv` with the store unchanged. -/
inductive CsvRun where
  | ret (store : List CRec) (inserted : ℕ)
  | raise (store : List CRec) (msg : String)
  deriving DecidableEq

/-- The store after a `process_csv` call. -/
def csvStore : CsvRun → List CRec
  | .ret st _ => st
  | .raise st _ => st

/-- Records actually appended by a `process_csv` call. -/
def csvInserted : CsvRun → ℕ
  | .ret _ n => n
  | .raise _ _ => 0

/-- Keys (`obs_date`) present in the CSV-backed store. -/
def ckeysOf (store : List CRec) : List String := store.map (fun r => r.obs_date)

/-- The record rows assembled by `process_csv` from the resolved column
indices: per data row, the constructed `obs_date` plus the four numeric
cells, with `dropna` removing any row having a `NaN` among them. -/
def csvParsedRows (f : Csv) (year month : String)
    (iObs iTemp iRh iTmax iTmin : ℕ) : List CRec :=
  (f.rows.map (fun row =>
    ({ obs_date := build_date year month (row.getD iObs .cnan),
       temperature := row.getD iTemp .cnan,
       humidity := row.getD iRh .cnan,
       tmax := row.getD iTmax .cnan,
       tmin := row.getD iTmin .cnan } : CRec))).filter (fun r =>
    !(cellIsNan r.temperature || cellIsNan r.humidity ||
      cellIsNan r.tmax || cellIsNan r.tmin))

/-- The store-write tail of `process_csv`: pre-filter the parsed rows against
the dates already present, then append the remainder wholesale (`to_sql`
append — the table has no uniqueness constraint). -/
def csvAppend (store : List CRec) (df_new : List CRec) : CsvRun :=
  .ret (store ++ df_new.filter (fun r => !((ckeysOf store).contains r.obs_date)))
    (df_new.filter (fun r => !((ckeysOf store).contains r.obs_date))).length

/-- `process_csv(filepath, filename)` from `weather_v8.1.py`, acting on the
store.  Filename-format errors and unreadable files (`file = none`) are
caught and return with nothing inserted.  A missing logical column raises a
`KeyError` out of the function (uncaught).  Otherwise rows are assembled,
rows with a `NaN` among the selected columns are dropped, rows whose
`obs_date` already exists in the store are pre-filtered out, and the rest are
appended (the table itself has no uniqueness constraint). -/
def process_csv (store : List CRec) (filename : String) (file : Option Csv) :
    CsvRun :=
  let name_part := dropExt filename
  let parts := pySplit '-' name_part
  match parts.get? 1, parts.get? 2 with
  | some year, some month =>
    match file with
    | none => .ret store 0
    | some f =>
      let cols := flattenCols f.h1 f.h2
      match find_col cols ["觀測時間", "ObsTime"] with
      | none => .raise store (keyErrMsg ["觀測時間", "ObsTime"])
      | some iObs =>
        match find_col cols ["氣溫", "Temperature"] with
        | none => .raise store (keyErrMsg ["氣溫", "Temperature"])
        | some iTemp =>
          match find_col cols ["相對溼度", "RH"] with
          | none => .raise store (keyErrMsg ["相對溼度", "RH"])
          | some iRh =>
            match find_col cols ["最高氣溫", "T Max"] with
            | none => .raise store (keyErrMsg ["最高氣溫", "T Max"])
            | some iTmax =>
              match find_col cols ["最低氣溫", "T Min"] with
              | none => .raise store (keyErrMsg ["最低氣溫", "T Min"])
              | some iTmin =>
                csvAppend store (csvParsedRows f year month iObs iTemp iRh iTmax iTmin)
  | _, _ => .ret store 0

example :
    process_csv [] "a-2024-05.csv"
      (some ⟨["ObsTime", "Temperature", "RH", "T Max", "T Min"],
             ["", "", "", "", ""],
             [[.cstr "1", .cnum 25, .cnum 80, .cnum 30, .cnum 20]]⟩)
      = .ret [⟨"2024-05-01", .cnum 25, .cnum 80, .cnum 30, .cnum 20⟩] 1 := by
  with_unfolding_all rfl
example : process_csv [] "badname.csv" (some ⟨[], [], []⟩) = .ret [] 0 := by
  with_unfolding_all rfl

/-! ## GDD threshold sweep model (`weather_v8.1.py` `gdd_compare`)

`series` models the store's rows after the up-front
`pd.to_datetime(df["obs_date"])` conversion: each row carries its civil day
number and the `tmax`/`tmin` columns.  The three ranges arrive as strings
from the request body and are parsed at their first use inside the loop, as
the pandas comparisons do.
-/

/-- A store row as seen by the sweep: day number and daily extremes. -/
structure GRow where
  obs_date : ℤ
  tmax : ℚ
  tmin : ℚ
  deriving DecidableEq

/-- One result-table entry
(`{"Tb": …, "GDD1": …, "GDD2": …, "GDD3": …, "std": …}`). -/
structure GEntry where
  Tb : ℚ
  g1 : ℚ
  g2 : ℚ
  g3 : ℚ
  std : ℚ
  deriving DecidableEq

/-- The unrounded accumulated GDD of a range:
`((sub.tmax + sub.tmin)/2 - Tb).clip(lower=0).sum()` over the rows whose
date lies in the inclusive range. -/
def gddRaw (series : List GRow) (Tb : ℚ) (sd ed : ℤ) : ℚ :=
  ((series.filter (fun r => decide (sd ≤ r.obs_date) && decide (r.obs_date ≤ ed))).map
    (fun r => max 0 ((r.tmax + r.tmin) / 2 - Tb))).sum

/-- `calc_gdd(start, end)` from `gdd_compare`: comparing the date column
against an unparseable bound raises (modelled as `Except.error` carrying the
offending bound); otherwise the clipped sum, rounded to 2 decimals. -/
def calc_gdd (series : List GRow) (Tb : ℚ) (s e : String) : Except String ℚ :=
  match parseDate s with
  | none => .error s
  | some sd =>
    match parseDate e with
    | none => .error e
    | some ed => .ok (round2 (gddRaw series Tb sd ed))

/-- Population variance of three values (the square of `np.std([g1,g2,g3])`). -/
def varq (a b c : ℚ) : ℚ :=
  ((a - (a + b + c) / 3) ^ 2 + (b - (a + b + c) / 3) ^ 2 +
    (c - (a + b + c) / 3) ^ 2) / 3

/-- Bounded linear search for the integer square-root floor. -/
def isqrtGo (m : ℕ) : ℕ → ℕ → ℕ
  | 0, k => k
  | fuel + 1, k => if (k + 1) * (k + 1) ≤ m then isqrtGo m fuel (k + 1) else k

/-- Integer square-root floor (an executable stand-in for `Nat.sqrt`, whose
well-founded recursion does not reduce). -/
def isqrt (m : ℕ) : ℕ := isqrtGo m m 0

theorem isqrtGo_spec (m : ℕ) : ∀ (fuel k : ℕ), k * k ≤ m →
    m < (k + fuel + 1) * (k + fuel + 1) →
    isqrtGo m fuel k * isqrtGo m fuel k ≤ m ∧
      m < (isqrtGo m fuel k + 1) * (isqrtGo m fuel k + 1) := by
  intro fuel
  induction fuel with
  | zero =>
    intro k hk hm
    simp only [isqrtGo]
    constructor
    · exact hk
    · simpa using hm
  | succ n ih =>
    intro k hk hm
    simp only [isqrtGo]
    split
    · rename_i h
      exact ih (k + 1) h (by nlinarith)
    · rename_i h
      exact ⟨hk, lt_of_not_le h⟩

theorem isqrt_spec (m : ℕ) :
    isqrt m * isqrt m ≤ m ∧ m < (isqrt m + 1) * (isqrt m + 1) := by
  unfold isqrt
  exact isqrtGo_spec m m 0 (by nlinarith) (by nlinarith)

/-- Round-half-even of the square root of `t`, given a candidate integer
square-root floor `s`: the integer nearest to `√t`, ties to even. -/
def heSqrtInt (t : ℚ) (s : ℕ) : ℤ :=
  if t < (s : ℚ) ^ 2 + s + 1/4 then (s : ℤ)
  else if (s : ℚ) ^ 2 + s + 1/4 < t then (s : ℤ) + 1
  else if s % 2 = 0 then (s : ℤ) else (s : ℤ) + 1

/-- Exact value of `round(√v, 2)` for a nonnegative rational `v`: the
half-even rounding of `100·√v`, divided by 100. -/
def roundSqrtHE2 (v : ℚ) : ℚ :=
  (heSqrtInt (10000 * v) (isqrt ⌊(10000 : ℚ) * v⌋.toNat) : ℚ) / 100

/-- `round(np.std([a, b, c]), 2)`: the population standard deviation of the
three accumulated GDD values, rounded to 2 decimals. -/
def stdRound2 (a b c : ℚ) : ℚ := roundSqrtHE2 (varq a b c)

/-- One iteration body of the `for Tb in range(0, 21)` loop: the three
`calc_gdd` calls in order, then the result-dict for this `Tb`.  A pandas
exception aborts the iteration (and the whole request). -/
def sweepEntry (series : List GRow) (r1 r2 r3 : String × String) (Tb : ℚ) :
    Except String GEntry :=
  match calc_gdd series Tb r1.1 r1.2 with
  | .error e => .error e
  | .ok g1 =>
    match calc_gdd series Tb r2.1 r2.2 with
    | .error e => .error e
    | .ok g2 =>
      match calc_gdd series Tb r3.1 r3.2 with
      | .error e => .error e
      | .ok g3 => .ok ⟨Tb, g1, g2, g3, stdRound2 g1 g2 g3⟩

/-- The `results` accumulation over the listed base temperatures; an
exception anywhere discards the partial list (it escapes the request
handler). -/
def buildTable (series : List GRow) (r1 r2 r3 : String × String) :
    List ℕ → Except String (List GEntry)
  | [] => .ok []
  | tb :: rest =>
    match sweepEntry series r1 r2 r3 (tb : ℚ) with
    | .error e => .error e
    | .ok en =>
      match buildTable series r1 r2 r3 rest with
      | .error e => .error e
      | .ok es => .ok (en :: es)

/-- Python `min(results, key=lambda x: x["std"])` starting from a first
candidate: later entries replace the current best only when strictly
smaller, so the first minimum wins ties. -/
def pickBest (b : GEntry) (l : List GEntry) : GEntry :=
  l.foldl (fun acc e => if e.std < acc.std then e else acc) b

/-- The `/gdd_compare` handler's computation: the 21-point sweep over
`Tb = 0..20` and the best (minimum-`std`) entry. -/
def gdd_compare (series : List GRow) (r1 r2 r3 : String × String) :
    Except String (List GEntry × GEntry) :=
  match buildTable series r1 r2 r3 (List.range 21) with
  | .error e => .error e
  | .ok [] => .error "empty"
  | .ok (h :: t) => .ok (h :: t, pickBest h t)

/-- Instrumented run of one loop iteration: the accumulated-GDD values whose
computation completed, in execution order, and the error if one was raised. -/
def traceStep (series : List GRow) (r1 r2 r3 : String × String) (Tb : ℚ) :
    List ℚ × Option String :=
  match calc_gdd series Tb r1.1 r1.2 with
  | .error e => ([], some e)
  | .ok g1 =>
    match calc_gdd series Tb r2.1 r2.2 with
    | .error e => ([g1], some e)
    | .ok g2 =>
      match calc_gdd series Tb r3.1 r3.2 with
      | .error e => ([g1, g2], some e)
      | .ok g3 => ([g1, g2, g3], none)

/-- Instrumented run of the whole sweep loop: every accumulated-GDD value
computed before the first raised exception (all of them when none is
raised). -/
def traceLoop (series : List GRow) (r1 r2 r3 : String × String) :
    List ℕ → List ℚ × Option String
  | [] => ([], none)
  | tb :: rest =>
    match traceStep series r1 r2 r3 (tb : ℚ) with
    | (gs, some e) => (gs, some e)
    | (gs, none) =>
      let p := traceLoop series r1 r2 r3 rest
      (gs ++ p.1, p.2)

/-- The execution trace of `gdd_compare`'s loop over `Tb = 0..20`. -/
def gddTrace (series : List GRow) (r1 r2 r3 : String × String) :
    List ℚ × Option String :=
  traceLoop series r1 r2 r3 (List.range 21)

example :
    calc_gdd [⟨daysFromCivil 2024 1 2, 30, 20⟩] 10 "2024-01-01" "2024-01-03"
      = .ok 15 := by with_unfolding_all rfl
example :
    calc_gdd [⟨daysFromCivil 2024 1 2, 30, 20⟩] 10 "garbage" "2024-01-03"
      = .error "garbage" := by with_unfolding_all rfl
example : stdRound2 15 17 13 = 163/100 := by with_unfolding_all rfl
example : stdRound2 45 45 45 = 0 := by with_unfolding_all rfl

/-! ## Claim theorems -/

/-- C1 (code bug): the CSV-backed store in `weather_v8.1.py` does NOT reject
duplicate `obs_key` values itself — its table has no uniqueness constraint
and `process_csv` only pre-filters against dates already stored before the
call.  A single upload containing two rows that map to the same day
(here day `1` twice) is appended wholesale, leaving the store with a
duplicated `obs_date`, contradicting the store-enforced-uniqueness
invariant. -/
theorem csv_store_accepts_duplicate_key :
    process_csv [] "a-2024-05.csv"
      (some ⟨["ObsTime", "Temperature", "RH", "T Max", "T Min"],
             ["", "", "", "", ""],
             [[.cstr "1", .cnum 25, .cnum 80, .cnum 30, .cnum 20],
              [.cstr "1", .cnum 26, .cnum 81, .cnum 31, .cnum 21]]⟩)
      = .ret [⟨"2024-05-01", .cnum 25, .cnum 80, .cnum 30, .cnum 20⟩,
              ⟨"2024-05-01", .cnum 26, .cnum 81, .cnum 31, .cnum 21⟩] 2 ∧
    ¬ (ckeysOf (csvStore (process_csv [] "a-2024-05.csv"
      (some ⟨["ObsTime", "Temperature", "RH", "T Max", "T Min"],
             ["", "", "", "", ""],
             [[.cstr "1", .cnum 25, .cnum 80, .cnum 30, .cnum 20],
              [.cstr "1", .cnum 26, .cnum 81, .cnum 31, .cnum 21]]⟩)))).Nodup := by
  constructor
  · with_unfolding_all rfl
  · with_unfolding_all decide

/-- C3 (code bug): when a required logical column cannot be located
(here: relative humidity), `process_csv` does reject the whole file with a
missing-column `KeyError` and inserts zero records, but the exception is
NOT caught inside `process_csv` — unlike the filename and read errors a few
lines earlier, it escapes the parser's boundary to the Flask route,
contradicting the never-raise-past-the-boundary propagation policy. -/
theorem missing_column_raises :
    process_csv [] "a-2024-05.csv"
      (some ⟨["ObsTime", "Temperature", "T Max", "T Min"],
             ["", "", "", ""],
             [[.cstr "1", .cnum 25, .cnum 30, .cnum 20]]⟩)
      = .raise [] (keyErrMsg ["相對溼度", "RH"]) := by
  with_unfolding_all rfl

/-- C8 (code bug): `insert_to_db` in `CWB8.1.py` performs no validity check
on the coerced temperature/humidity beyond `float(...)` itself, so the
upstream missing-data sentinel `-99` is stored as a real temperature instead
of being treated as absent. -/
theorem sentinel_stored_not_filtered :
    rowOfStation ⟨some STATION, some "2024-05-01T12:00:00+08:00",
      .wdict [("AirTemperature", .vnum (-99)), ("RelativeHumidity", .vnum 70)]⟩
      = some ⟨"2024-05-01 12:00", -99, 70⟩ := by
  with_unfolding_all rfl

/-- C6 (confirmed): every API entry carrying the UTC timestamp
`"2024-05-01T20:00:00Z"` that yields a row at all yields the dedup key
`"2024-05-02 04:00"` — the timestamp is shifted to the fixed +08:00 offset
and truncated to minute resolution. -/
theorem api_timestamp_normalization (st : Station) (row : Row3)
    (ht : st.obsTime = some "2024-05-01T20:00:00Z")
    (hr : rowOfStation st = some row) :
    row.obs_date = "2024-05-02 04:00" := by
  obtain ⟨sid, sot, selems⟩ := st
  have ht' : sot = some "2024-05-01T20:00:00Z" := ht
  subst ht'
  simp only [rowOfStation] at hr
  by_cases hs : sid ≠ some STATION
  · rw [if_pos hs] at hr
    exact absurd hr (by simp)
  · rw [if_neg hs] at hr
    rw [if_neg (by decide : ¬ ("2024-05-01T20:00:00Z" = ""))] at hr
    rcases hT : pyFloat (extract_weather_element
        ⟨sid, some "2024-05-01T20:00:00Z", selems⟩ "AirTemperature") with _ | q
    · rw [hT] at hr
      simp at hr
    · rcases hH : pyFloat (extract_weather_element
          ⟨sid, some "2024-05-01T20:00:00Z", selems⟩ "RelativeHumidity") with _ | q2
      · rw [hT, hH] at hr
        simp at hr
      · rw [hT, hH] at hr
        have hN : normalizeObsTime "2024-05-01T20:00:00Z" = some "2024-05-02 04:00" := by
          decide
        rw [hN] at hr
        simp at hr
        rw [← hr]

/-- Concrete station used to witness the C6 timestamp-normalization claim. -/
def stW : Station :=
  ⟨some STATION, some "2024-05-01T20:00:00Z",
    .wdict [("AirTemperature", .vnum 25), ("RelativeHumidity", .vnum 80)]⟩

/-- C6 witness: the normalization theorem applied to a concrete station. -/
theorem api_timestamp_normalization_witness :
    stW.obsTime = some "2024-05-01T20:00:00Z" ∧
    rowOfStation stW = some ⟨"2024-05-02 04:00", 25, 80⟩ ∧
    (⟨"2024-05-02 04:00", 25, 80⟩ : Row3).obs_date = "2024-05-02 04:00" := by
  refine ⟨rfl, by with_unfolding_all rfl, ?_⟩
  exact api_timestamp_normalization stW ⟨"2024-05-02 04:00", 25, 80⟩ rfl
    (by with_unfolding_all rfl)

/-- List encoding of a set of weather elements: the
`[{ElementName, ElementValue}, …]` form carrying the same key-value pairs
as the dict form. -/
def encodeItems (kvs : List (String × Val)) : List WItem :=
  kvs.map (fun p => ⟨some p.1, p.2⟩)

theorem pyFloat_tryFloatVal (v : Val) : pyFloat (tryFloatVal v) = pyFloat v := by
  cases v with
  | vnum q => rfl
  | vnone => rfl
  | vstr s =>
    unfold tryFloatVal
    cases h : pyFloatStr s with
    | none => simp [pyFloat, h]
    | some q => simp [pyFloat, h]

theorem find_encode (kvs : List (String × Val)) (key : String) :
    (encodeItems kvs).find? (fun it => it.name == some key)
      = (kvs.find? (fun p => p.1 == key)).map (fun p => (⟨some p.1, p.2⟩ : WItem)) := by
  induction kvs with
  | nil => rfl
  | cons p rest ih =>
    simp only [encodeItems, List.map_cons, List.find?] at *
    have hbeq : ((some p.1 : Option String) == some key) = (p.1 == key) := rfl
    rw [hbeq]
    cases h : (p.1 == key) with
    | true => rfl
    | false => exact ih

theorem extract_encoding (sid ot : Option String) (kvs : List (String × Val))
    (key : String) :
    pyFloat (extract_weather_element ⟨sid, ot, .wlist (encodeItems kvs)⟩ key)
      = pyFloat (extract_weather_element ⟨sid, ot, .wdict kvs⟩ key) := by
  unfold extract_weather_element lookupAssoc
  simp only [find_encode]
  cases h : kvs.find? (fun p => p.1 == key) with
  | none => rfl
  | some p => simp [pyFloat_tryFloatVal]

theorem rowOfStation_encoding (sid ot : Option String) (kvs : List (String × Val)) :
    rowOfStation ⟨sid, ot, .wdict kvs⟩
      = rowOfStation ⟨sid, ot, .wlist (encodeItems kvs)⟩ := by
  unfold rowOfStation
  rw [extract_encoding sid ot kvs "AirTemperature",
      extract_encoding sid ot kvs "RelativeHumidity"]

/-- C7 (confirmed): two API payloads that are identical except that one
station encodes its weather elements as a direct mapping and the other as a
list of `ElementName`/`ElementValue` items with the same values parse to
identical rows (same `obs_key`, temperature, and humidity). -/
theorem shape_tolerance_dict_list (pre post : List Station)
    (sid ot : Option String) (kvs : List (String × Val)) :
    parseRows (pre ++ (⟨sid, ot, .wdict kvs⟩ :: post))
      = parseRows (pre ++ (⟨sid, ot, .wlist (encodeItems kvs)⟩ :: post)) := by
  unfold parseRows
  rw [List.filterMap_append, List.filterMap_append, List.filterMap_cons,
      List.filterMap_cons, rowOfStation_encoding]

/-- C10 (confirmed): when the payload parses to no valid rows,
`insert_to_db` returns 0 and leaves both the relation and the process-wide
`last_update_time` untouched; when at least one row parses,
`last_update_time` is overwritten with the current time — even if every
parsed row is a duplicate and the inserted count is 0. -/
theorem insert_frame_last_update (s : DbState) (stations : List Station)
    (now : String) :
    (parseRows stations = [] →
      insert_to_db s (.plist stations) now = (0, s)) ∧
    (parseRows stations ≠ [] →
      (insert_to_db s (.plist stations) now).2.lastUpdate = some now) := by
  constructor
  · intro h
    simp [insert_to_db, h]
  · intro h
    simp [insert_to_db, h]

/-- A station whose row parses, used to witness the frame-effect claim. -/
def stGood : Station :=
  ⟨some STATION, some "2024-05-01T12:00:00+08:00",
    .wdict [("AirTemperature", .vnum 25), ("RelativeHumidity", .vnum 80)]⟩

/-- C10 witness: the frame theorem applied to a concrete empty payload and a
concrete one-station payload. -/
theorem insert_frame_last_update_witness :
    (parseRows [] = [] ∧ insert_to_db ⟨[], none⟩ (.plist []) "T1" = (0, ⟨[], none⟩)) ∧
    (parseRows [stGood] ≠ [] ∧
      (insert_to_db ⟨[], none⟩ (.plist [stGood]) "T1").2.lastUpdate = some "T1") := by
  constructor
  · exact ⟨rfl, (insert_frame_last_update ⟨[], none⟩ [] "T1").1 rfl⟩
  · have h : parseRows [stGood] ≠ [] := by
      with_unfolding_all decide
    exact ⟨h, (insert_frame_last_update ⟨[], none⟩ [stGood] "T1").2 h⟩

theorem gddRaw_antitone (series : List GRow) (sd ed : ℤ) :
    gddRaw series 20 sd ed ≤ gddRaw series 0 sd ed := by
  unfold gddRaw
  apply List.sum_le_sum
  intro r _
  apply max_le_max le_rfl
  linarith

/-- C5 (confirmed): for a fixed series and date range, the accumulated GDD
returned by `calc_gdd` at base temperature 0 is at least the one at base
temperature 20 — each day's clipped contribution cannot increase when the
base is raised, and rounding is monotone. -/
theorem gdd_antitone_base (series : List GRow) (s e : String) (g0 g20 : ℚ)
    (h0 : calc_gdd series 0 s e = .ok g0)
    (h20 : calc_gdd series 20 s e = .ok g20) :
    g20 ≤ g0 := by
  unfold calc_gdd at h0 h20
  cases hs : parseDate s with
  | none =>
    rw [hs] at h0
    exact absurd h0 (by simp)
  | some sd =>
    rw [hs] at h0 h20
    cases he : parseDate e with
    | none =>
      rw [he] at h0
      exact absurd h0 (by simp)
    | some ed =>
      rw [he] at h0 h20
      have e0 : g0 = round2 (gddRaw series 0 sd ed) := by
        cases h0; rfl
      have e20 : g20 = round2 (gddRaw series 20 sd ed) := by
        cases h20; rfl
      rw [e0, e20]
      exact round2_mono (gddRaw_antitone series sd ed)

/-- Concrete one-day series used to witness the GDD claims. -/
def seriesW : List GRow := [⟨daysFromCivil 2024 1 2, 30, 20⟩]

/-- C5 witness: the antitonicity theorem applied at a concrete series and
range, where the two accumulated values evaluate to 25 and 5. -/
theorem gdd_antitone_base_witness :
    calc_gdd seriesW 0 "2024-01-01" "2024-01-03" = .ok 25 ∧
    calc_gdd seriesW 20 "2024-01-01" "2024-01-03" = .ok 5 ∧
    (5 : ℚ) ≤ 25 := by
  refine ⟨by with_unfolding_all rfl, by with_unfolding_all rfl, ?_⟩
  exact gdd_antitone_base seriesW "2024-01-01" "2024-01-03" 25 5
    (by with_unfolding_all rfl) (by with_unfolding_all rfl)

/-! ## Idempotence of ingestion (C2) -/

theorem keysOf_append (a b : List Row3) : keysOf (a ++ b) = keysOf a ++ keysOf b := by
  simp [keysOf]

theorem insLoop_keys_subset (rs : List Row3) :
    ∀ (db : List Row3) (k : String), k ∈ keysOf db → k ∈ keysOf (insLoop db rs).1 := by
  induction rs with
  | nil =>
    intro db k hk
    simpa [insLoop] using hk
  | cons r rs ih =>
    intro db k hk
    unfold insLoop
    split
    · exact ih db k hk
    · exact ih (db ++ [r]) k
        (by rw [keysOf_append]; exact List.mem_append_left _ hk)

theorem insLoop_mem_keys (rs : List Row3) :
    ∀ (db : List Row3) (r : Row3), r ∈ rs →
      r.obs_date ∈ keysOf (insLoop db rs).1 := by
  induction rs with
  | nil =>
    intro db r hr
    cases hr
  | cons a rs ih =>
    intro db r hr
    unfold insLoop
    split
    · rename_i hmem
      rcases List.mem_cons.mp hr with rfl | hr'
      · exact insLoop_keys_subset rs db _ hmem
      · exact ih db r hr'
    · rcases List.mem_cons.mp hr with rfl | hr'
      · refine insLoop_keys_subset rs (db ++ [r]) _ ?_
        rw [keysOf_append]
        refine List.mem_append_right _ ?_
        simp [keysOf]
      · exact ih (db ++ [a]) r hr'

theorem insLoop_noop (rs : List Row3) :
    ∀ db : List Row3, (∀ r ∈ rs, r.obs_date ∈ keysOf db) → insLoop db rs = (db, 0) := by
  induction rs with
  | nil =>
    intro db _
    rfl
  | cons a rs ih =>
    intro db h
    unfold insLoop
    rw [if_pos (h a (List.mem_cons_self a rs))]
    exact ih db (fun r hr => h r (List.mem_cons_of_mem a hr))

theorem ckeysOf_append (a b : List CRec) : ckeysOf (a ++ b) = ckeysOf a ++ ckeysOf b := by
  simp [ckeysOf]

theorem contains_eq_true_of_mem {l : List String} {a : String} (h : a ∈ l) :
    l.contains a = true := by
  simp only [List.contains, List.elem_eq_mem, decide_eq_true_eq]
  exact h

theorem contains_eq_false_of_not_mem {l : List String} {a : String} (h : a ∉ l) :
    l.contains a = false := by
  simp only [List.contains, List.elem_eq_mem, decide_eq_false_iff_not]
  exact h

theorem csv_second_filter (store D : List CRec) :
    D.filter (fun r =>
      !((ckeysOf (csvStore (csvAppend store D))).contains r.obs_date)) = [] := by
  rw [List.filter_eq_nil_iff]
  intro r hr
  have hmem : r.obs_date ∈ ckeysOf (csvStore (csvAppend store D)) := by
    show r.obs_date ∈
      ckeysOf (store ++ D.filter (fun r => !((ckeysOf store).contains r.obs_date)))
    rw [ckeysOf_append, List.mem_append]
    by_cases hx : r.obs_date ∈ ckeysOf store
    · exact Or.inl hx
    · refine Or.inr (List.mem_map.mpr ⟨r, ?_, rfl⟩)
      rw [List.mem_filter]
      exact ⟨hr, by rw [contains_eq_false_of_not_mem hx]; rfl⟩
  rw [contains_eq_true_of_mem hmem]
  simp

theorem csvAppend_idem (store D : List CRec) :
    csvAppend (csvStore (csvAppend store D)) D = .ret (csvStore (csvAppend store D)) 0 := by
  have h := csv_second_filter store D
  conv_lhs => rw [csvAppend]
  rw [h]
  simp

/-- C2 (confirmed): ingestion is idempotent for both pipelines.  Running the
API `insert_to_db` a second time on the same payload from the state the
first run left behind inserts 0 records and leaves the relation unchanged;
running `process_csv` a second time on the same uploaded file appends 0
records and leaves the CSV-backed store unchanged. -/
theorem ingestion_idempotent :
    (∀ (s : DbState) (p : Payload) (n1 n2 : String),
      (insert_to_db (insert_to_db s p n1).2 p n2).1 = 0 ∧
      (insert_to_db (insert_to_db s p n1).2 p n2).2.db = (insert_to_db s p n1).2.db) ∧
    (∀ (store : List CRec) (fn : String) (file : Option Csv),
      csvInserted (process_csv (csvStore (process_csv store fn file)) fn file) = 0 ∧
      csvStore (process_csv (csvStore (process_csv store fn file)) fn file)
        = csvStore (process_csv store fn file)) := by
  constructor
  · intro s p n1 n2
    cases p with
    | pother => exact ⟨rfl, rfl⟩
    | plist stations =>
      by_cases h : parseRows stations = []
      · constructor
        · simp [insert_to_db, h]
        · simp [insert_to_db, h]
      · have hkeys : ∀ r ∈ parseRows stations,
            r.obs_date ∈ keysOf (insLoop s.db (parseRows stations)).1 :=
          fun r hr => insLoop_mem_keys _ _ _ hr
        have hnoop := insLoop_noop (parseRows stations)
          (insLoop s.db (parseRows stations)).1 hkeys
        constructor
        · simp [insert_to_db, h, hnoop]
        · simp [insert_to_db, h, hnoop]
  · intro store fn file
    cases hy : (pySplit '-' (dropExt fn))[1]? with
    | none =>
      constructor <;> simp [process_csv, hy, csvStore, csvInserted]
    | some year =>
      cases hm : (pySplit '-' (dropExt fn))[2]? with
      | none =>
        constructor <;> simp [process_csv, hy, hm, csvStore, csvInserted]
      | some month =>
        cases file with
        | none =>
          constructor <;> simp [process_csv, hy, hm, csvStore, csvInserted]
        | some f =>
          cases hc1 : find_col (flattenCols f.h1 f.h2) ["觀測時間", "ObsTime"] with
          | none =>
            constructor <;> simp [process_csv, hy, hm, hc1, csvStore, csvInserted]
          | some iObs =>
            cases hc2 : find_col (flattenCols f.h1 f.h2) ["氣溫", "Temperature"] with
            | none =>
              constructor <;> simp [process_csv, hy, hm, hc1, hc2, csvStore, csvInserted]
            | some iTemp =>
              cases hc3 : find_col (flattenCols f.h1 f.h2) ["相對溼度", "RH"] with
              | none =>
                constructor <;>
                  simp [process_csv, hy, hm, hc1, hc2, hc3, csvStore, csvInserted]
              | some iRh =>
                cases hc4 : find_col (flattenCols f.h1 f.h2) ["最高氣溫", "T Max"] with
                | none =>
                  constructor <;>
                    simp [process_csv, hy, hm, hc1, hc2, hc3, hc4, csvStore, csvInserted]
                | some iTmax =>
                  cases hc5 : find_col (flattenCols f.h1 f.h2) ["最低氣溫", "T Min"] with
                  | none =>
                    constructor <;>
                      simp [process_csv, hy, hm, hc1, hc2, hc3, hc4, hc5, csvStore,
                        csvInserted]
                  | some iTmin =>
                    have hrun : process_csv store fn (some f) =
                        csvAppend store (csvParsedRows f year month iObs iTemp iRh
                          iTmax iTmin) := by
                      simp [process_csv, hy, hm, hc1, hc2, hc3, hc4, hc5]
                    have hrun2 : process_csv (csvStore (process_csv store fn (some f)))
                          fn (some f) =
                        csvAppend (csvStore (process_csv store fn (some f)))
                          (csvParsedRows f year month iObs iTemp iRh iTmax iTmin) := by
                      simp [process_csv, hy, hm, hc1, hc2, hc3, hc4, hc5]
                    rw [hrun2, hrun, csvAppend_idem]
                    exact ⟨rfl, rfl⟩

/-! ## Malformed range bounds (C9) -/

theorem calc_gdd_err (series : List GRow) (Tb : ℚ) (s e : String)
    (h : parseDate s = none ∨ parseDate e = none) :
    ∃ msg, calc_gdd series Tb s e = .error msg := by
  unfold calc_gdd
  rcases h with h | h
  · rw [h]
    exact ⟨s, rfl⟩
  · cases hs : parseDate s with
    | none => exact ⟨s, rfl⟩
    | some sd =>
      rw [h]
      exact ⟨e, rfl⟩

theorem sweepEntry_err (series : List GRow) (r1 r2 r3 : String × String) (Tb : ℚ)
    (h : (∃ m, calc_gdd series Tb r1.1 r1.2 = .error m) ∨
         (∃ m, calc_gdd series Tb r2.1 r2.2 = .error m) ∨
         (∃ m, calc_gdd series Tb r3.1 r3.2 = .error m)) :
    ∃ m, sweepEntry series r1 r2 r3 Tb = .error m := by
  unfold sweepEntry
  cases hc1 : calc_gdd series Tb r1.1 r1.2 with
  | error m => exact ⟨m, rfl⟩
  | ok g1 =>
    cases hc2 : calc_gdd series Tb r2.1 r2.2 with
    | error m => exact ⟨m, rfl⟩
    | ok g2 =>
      cases hc3 : calc_gdd series Tb r3.1 r3.2 with
      | error m => exact ⟨m, rfl⟩
      | ok g3 =>
        exfalso
        rcases h with ⟨m, hm⟩ | ⟨m, hm⟩ | ⟨m, hm⟩ <;> simp_all

theorem traceStep_err (series : List GRow) (r1 r2 r3 : String × String) (Tb : ℚ)
    (h : (∃ m, calc_gdd series Tb r1.1 r1.2 = .error m) ∨
         (∃ m, calc_gdd series Tb r2.1 r2.2 = .error m) ∨
         (∃ m, calc_gdd series Tb r3.1 r3.2 = .error m)) :
    (traceStep series r1 r2 r3 Tb).2.isSome ∧
      (traceStep series r1 r2 r3 Tb).1.length ≤ 2 := by
  unfold traceStep
  cases hc1 : calc_gdd series Tb r1.1 r1.2 with
  | error m => exact ⟨rfl, by norm_num⟩
  | ok g1 =>
    cases hc2 : calc_gdd series Tb r2.1 r2.2 with
    | error m => exact ⟨rfl, by norm_num⟩
    | ok g2 =>
      cases hc3 : calc_gdd series Tb r3.1 r3.2 with
      | error m => exact ⟨rfl, by norm_num⟩
      | ok g3 =>
        exfalso
        rcases h with ⟨m, hm⟩ | ⟨m, hm⟩ | ⟨m, hm⟩ <;> simp_all

/-- C9 (corrected): a malformed (non-parseable) bound in any of the three
ranges makes the request fail — `gdd_compare` raises and no table (not even
a partial one) is returned — but the failure is NOT detected by up-front
input validation: it surfaces at the first pandas comparison using the bad
bound during the first loop iteration, after the accumulated GDD of every
range preceding the malformed one in that iteration has already been
computed (at most two values). -/
theorem gdd_malformed_range_errors (series : List GRow) (r1 r2 r3 : String × String)
    (h : parseDate r1.1 = none ∨ parseDate r1.2 = none ∨ parseDate r2.1 = none ∨
         parseDate r2.2 = none ∨ parseDate r3.1 = none ∨ parseDate r3.2 = none) :
    (∃ msg, gdd_compare series r1 r2 r3 = .error msg) ∧
    (gddTrace series r1 r2 r3).1.length ≤ 2 := by
  have hcalc : ∀ Tb : ℚ,
      (∃ m, calc_gdd series Tb r1.1 r1.2 = .error m) ∨
      (∃ m, calc_gdd series Tb r2.1 r2.2 = .error m) ∨
      (∃ m, calc_gdd series Tb r3.1 r3.2 = .error m) := by
    intro Tb
    rcases h with h | h | h | h | h | h
    · exact Or.inl (calc_gdd_err series Tb _ _ (Or.inl h))
    · exact Or.inl (calc_gdd_err series Tb _ _ (Or.inr h))
    · exact Or.inr (Or.inl (calc_gdd_err series Tb _ _ (Or.inl h)))
    · exact Or.inr (Or.inl (calc_gdd_err series Tb _ _ (Or.inr h)))
    · exact Or.inr (Or.inr (calc_gdd_err series Tb _ _ (Or.inl h)))
    · exact Or.inr (Or.inr (calc_gdd_err series Tb _ _ (Or.inr h)))
  have hr21 : List.range 21 = 0 :: List.range' 1 20 := by decide
  constructor
  · obtain ⟨m, hm⟩ := sweepEntry_err series r1 r2 r3 (((0 : ℕ) : ℚ)) (hcalc _)
    unfold gdd_compare
    rw [hr21]
    unfold buildTable
    rw [hm]
    exact ⟨m, rfl⟩
  · obtain ⟨hsome, hlen⟩ := traceStep_err series r1 r2 r3 (((0 : ℕ) : ℚ)) (hcalc _)
    unfold gddTrace
    rw [hr21]
    unfold traceLoop
    cases hts : traceStep series r1 r2 r3 (((0 : ℕ) : ℚ)) with
    | mk gs oe =>
      rw [hts] at hsome hlen
      cases oe with
      | none => exact absurd hsome (by simp)
      | some e2 => simpa using hlen

/-- Series and ranges exhibiting the C9 counterexample: the third range's
lower bound is unparseable. -/
def gcSeries : List GRow := [⟨daysFromCivil 2024 1 2, 30, 20⟩]

/-- A well-formed range used in the C9 counterexample. -/
def gcR1 : String × String := ("2024-01-01", "2024-01-03")

/-- A range with an unparseable lower bound. -/
def gcRBad : String × String := ("nonsense!!", "2024-01-03")

/-- C9 counterexample: with a malformed third range, the request does fail
and returns no table — but contrary to the claim, the failure is detected
only after the GDD accumulations of the first two ranges (values 25 and 25
at `Tb = 0`) have been computed, i.e. not before any GDD computation
starts. -/
theorem gdd_malformed_range_computes_first :
    gdd_compare gcSeries gcR1 gcR1 gcRBad = .error "nonsense!!" ∧
    (gddTrace gcSeries gcR1 gcR1 gcRBad).1 = [25, 25] := by
  constructor
  · with_unfolding_all rfl
  · with_unfolding_all rfl

/-- C9 witness: the corrected malformed-bound theorem applied at a concrete
request whose third range has an unparseable lower bound. -/
theorem gdd_malformed_range_errors_witness :
    (parseDate "bad" = none) ∧
    (∃ msg, gdd_compare [] ("2024-01-01", "2024-01-02") ("2024-01-01", "2024-01-02")
      ("bad", "2024-01-02") = .error msg) ∧
    (gddTrace [] ("2024-01-01", "2024-01-02") ("2024-01-01", "2024-01-02")
      ("bad", "2024-01-02")).1.length ≤ 2 := by
  have h : parseDate "bad" = none := by decide
  have hmain := gdd_malformed_range_errors [] ("2024-01-01", "2024-01-02")
    ("2024-01-01", "2024-01-02") ("bad", "2024-01-02")
    (Or.inr (Or.inr (Or.inr (Or.inr (Or.inl h)))))
  exact ⟨h, hmain.1, hmain.2⟩

/-! ## The rounded standard deviation is the true `round(√variance, 2)` -/

theorem heSqrtInt_close (t : ℚ) (s : ℕ) (ht : 0 ≤ t)
    (h1 : ((s : ℚ)) ^ 2 ≤ t) (h2 : t < ((s : ℚ) + 1) ^ 2) :
    |((heSqrtInt t s : ℤ) : ℝ) - Real.sqrt (t : ℝ)| ≤ 1/2 := by
  have htR : (0 : ℝ) ≤ (t : ℝ) := by exact_mod_cast ht
  have h1R : ((s : ℝ)) ^ 2 ≤ (t : ℝ) := by exact_mod_cast h1
  have h2R : (t : ℝ) < ((s : ℝ) + 1) ^ 2 := by exact_mod_cast h2
  have hs_le : (s : ℝ) ≤ Real.sqrt (t : ℝ) :=
    (Real.le_sqrt (Nat.cast_nonneg s) htR).mpr h1R
  have hlt : Real.sqrt (t : ℝ) < (s : ℝ) + 1 :=
    (Real.sqrt_lt' (by positivity)).mpr h2R
  unfold heSqrtInt
  split
  · rename_i hcond
    have hC : (t : ℝ) < ((s : ℝ) + 1/2) ^ 2 := by
      have hq : (t : ℝ) < (((s : ℚ) ^ 2 + (s : ℚ) + 1/4 : ℚ) : ℝ) := by
        exact_mod_cast hcond
      push_cast at hq
      nlinarith
    have hlt2 : Real.sqrt (t : ℝ) < (s : ℝ) + 1/2 :=
      (Real.sqrt_lt' (by positivity)).mpr hC
    push_cast
    rw [abs_le]
    constructor <;> linarith
  · rename_i hcond
    split
    · rename_i hcond2
      have hC : ((s : ℝ) + 1/2) ^ 2 < (t : ℝ) := by
        have hq : (((s : ℚ) ^ 2 + (s : ℚ) + 1/4 : ℚ) : ℝ) < (t : ℝ) := by
          exact_mod_cast hcond2
        push_cast at hq
        nlinarith
      have hgt : (s : ℝ) + 1/2 < Real.sqrt (t : ℝ) := by
        have := Real.sqrt_lt_sqrt (by positivity : (0:ℝ) ≤ ((s : ℝ) + 1/2) ^ 2) hC
        rwa [Real.sqrt_sq (by positivity : (0:ℝ) ≤ (s : ℝ) + 1/2)] at this
      push_cast
      rw [abs_le]
      constructor <;> linarith
    · rename_i hcond2
      have heqt : t = ((s : ℚ)) ^ 2 + s + 1/4 := le_antisymm (not_lt.mp hcond2) (not_lt.mp hcond)
      have heqR : (t : ℝ) = ((s : ℝ) + 1/2) ^ 2 := by
        have hq : (t : ℝ) = (((s : ℚ) ^ 2 + (s : ℚ) + 1/4 : ℚ) : ℝ) := by
          exact_mod_cast congrArg (Rat.cast : ℚ → ℝ) heqt
        push_cast at hq
        nlinarith [hq]
      have hsq : Real.sqrt (t : ℝ) = (s : ℝ) + 1/2 := by
        rw [heqR, Real.sqrt_sq (by positivity : (0:ℝ) ≤ (s : ℝ) + 1/2)]
      rw [hsq]
      split
      · push_cast
        rw [abs_le]
        constructor <;> linarith
      · push_cast
        rw [abs_le]
        constructor <;> linarith

theorem roundSqrtHE2_close (v : ℚ) (hv : 0 ≤ v) :
    |((roundSqrtHE2 v : ℚ) : ℝ) - Real.sqrt ((v : ℚ) : ℝ)| ≤ 1/200 := by
  obtain ⟨hs1, hs2⟩ := isqrt_spec ⌊(10000 : ℚ) * v⌋.toNat
  have hmz : ((⌊(10000 : ℚ) * v⌋.toNat : ℤ)) = ⌊(10000 : ℚ) * v⌋ :=
    Int.toNat_of_nonneg (Int.floor_nonneg.mpr (by positivity))
  have hm_le : ((⌊(10000 : ℚ) * v⌋.toNat : ℚ)) ≤ 10000 * v := by
    have h := Int.floor_le ((10000 : ℚ) * v)
    rw [← hmz] at h
    exact_mod_cast h
  have hm_lt : 10000 * v < ((⌊(10000 : ℚ) * v⌋.toNat : ℚ)) + 1 := by
    have h := Int.lt_floor_add_one ((10000 : ℚ) * v)
    rw [← hmz] at h
    exact_mod_cast h
  have h1 : ((isqrt ⌊(10000 : ℚ) * v⌋.toNat : ℚ)) ^ 2 ≤ 10000 * v := by
    have h : ((isqrt ⌊(10000 : ℚ) * v⌋.toNat * isqrt ⌊(10000 : ℚ) * v⌋.toNat : ℕ) : ℚ)
        ≤ ((⌊(10000 : ℚ) * v⌋.toNat : ℚ)) := by exact_mod_cast hs1
    push_cast at h
    nlinarith [hm_le]
  have h2 : 10000 * v < ((isqrt ⌊(10000 : ℚ) * v⌋.toNat : ℚ) + 1) ^ 2 := by
    have h : ((⌊(10000 : ℚ) * v⌋.toNat : ℚ)) + 1
        ≤ (((isqrt ⌊(10000 : ℚ) * v⌋.toNat + 1) * (isqrt ⌊(10000 : ℚ) * v⌋.toNat + 1) : ℕ) : ℚ) := by
      exact_mod_cast hs2
    push_cast at h
    nlinarith [hm_lt]
  have hb := heSqrtInt_close (10000 * v) (isqrt ⌊(10000 : ℚ) * v⌋.toNat)
    (by positivity) h1 h2
  have hsqrt : Real.sqrt ((10000 * v : ℚ) : ℝ) = 100 * Real.sqrt ((v : ℚ) : ℝ) := by
    push_cast
    rw [Real.sqrt_mul (by norm_num : (0:ℝ) ≤ 10000)]
    rw [show (10000 : ℝ) = 100 ^ 2 by norm_num,
      Real.sqrt_sq (by norm_num : (0:ℝ) ≤ (100:ℝ))]
  rw [hsqrt] at hb
  unfold roundSqrtHE2
  push_cast
  rw [abs_le] at hb ⊢
  constructor <;> [linarith [hb.1]; linarith [hb.2]]

theorem roundSqrtHE2_quantized (v : ℚ) : (100 * roundSqrtHE2 v).den = 1 := by
  unfold roundSqrtHE2
  have h : (100 : ℚ) * (((heSqrtInt (10000 * v) (isqrt ⌊(10000 : ℚ) * v⌋.toNat) : ℤ) : ℚ) / 100)
      = ((heSqrtInt (10000 * v) (isqrt ⌊(10000 : ℚ) * v⌋.toNat) : ℤ) : ℚ) := by
    field_simp
  rw [h, Rat.den_intCast]

theorem varq_nonneg (a b c : ℚ) : 0 ≤ varq a b c := by
  unfold varq
  positivity

theorem stdRound2_close (a b c : ℚ) :
    |((stdRound2 a b c : ℚ) : ℝ) - Real.sqrt ((varq a b c : ℚ) : ℝ)| ≤ 1/200 :=
  roundSqrtHE2_close (varq a b c) (varq_nonneg a b c)

theorem stdRound2_quantized (a b c : ℚ) : (100 * stdRound2 a b c).den = 1 :=
  roundSqrtHE2_quantized (varq a b c)

/-! ## The sweep table and its best entry (C4) -/

theorem calc_gdd_ok (series : List GRow) (Tb : ℚ) (s e : String) (g : ℚ)
    (h : calc_gdd series Tb s e = .ok g) :
    ∃ sd ed, parseDate s = some sd ∧ parseDate e = some ed ∧
      g = round2 (gddRaw series Tb sd ed) := by
  unfold calc_gdd at h
  cases hs : parseDate s with
  | none =>
    rw [hs] at h
    exact absurd h (by simp)
  | some sd =>
    rw [hs] at h
    cases he : parseDate e with
    | none =>
      rw [he] at h
      exact absurd h (by simp)
    | some ed =>
      rw [he] at h
      injection h with h'
      exact ⟨sd, ed, rfl, rfl, h'.symm⟩

theorem sweepEntry_ok (series : List GRow) (r1 r2 r3 : String × String) (Tb : ℚ)
    (en : GEntry) (h : sweepEntry series r1 r2 r3 Tb = .ok en) :
    ∃ sd1 ed1 sd2 ed2 sd3 ed3,
      parseDate r1.1 = some sd1 ∧ parseDate r1.2 = some ed1 ∧
      parseDate r2.1 = some sd2 ∧ parseDate r2.2 = some ed2 ∧
      parseDate r3.1 = some sd3 ∧ parseDate r3.2 = some ed3 ∧
      en = ⟨Tb, round2 (gddRaw series Tb sd1 ed1), round2 (gddRaw series Tb sd2 ed2),
            round2 (gddRaw series Tb sd3 ed3),
            stdRound2 (round2 (gddRaw series Tb sd1 ed1))
              (round2 (gddRaw series Tb sd2 ed2))
              (round2 (gddRaw series Tb sd3 ed3))⟩ := by
  unfold sweepEntry at h
  cases hc1 : calc_gdd series Tb r1.1 r1.2 with
  | error m =>
    rw [hc1] at h
    exact absurd h (by simp)
  | ok g1 =>
    rw [hc1] at h
    cases hc2 : calc_gdd series Tb r2.1 r2.2 with
    | error m =>
      rw [hc2] at h
      exact absurd h (by simp)
    | ok g2 =>
      rw [hc2] at h
      cases hc3 : calc_gdd series Tb r3.1 r3.2 with
      | error m =>
        rw [hc3] at h
        exact absurd h (by simp)
      | ok g3 =>
        rw [hc3] at h
        obtain ⟨sd1, ed1, hp1, hp2, hg1⟩ := calc_gdd_ok _ _ _ _ _ hc1
        obtain ⟨sd2, ed2, hp3, hp4, hg2⟩ := calc_gdd_ok _ _ _ _ _ hc2
        obtain ⟨sd3, ed3, hp5, hp6, hg3⟩ := calc_gdd_ok _ _ _ _ _ hc3
        injection h with h'
        subst hg1
        subst hg2
        subst hg3
        exact ⟨sd1, ed1, sd2, ed2, sd3, ed3, hp1, hp2, hp3, hp4, hp5, hp6, h'.symm⟩

theorem buildTable_ok (series : List GRow) (r1 r2 r3 : String × String) :
    ∀ (tbs : List ℕ) (es : List GEntry),
      buildTable series r1 r2 r3 tbs = .ok es →
      es.length = tbs.length ∧
      ∀ i (ht : i < tbs.length) (he : i < es.length),
        sweepEntry series r1 r2 r3 ((tbs.get ⟨i, ht⟩ : ℕ) : ℚ) = .ok (es.get ⟨i, he⟩) := by
  intro tbs
  induction tbs with
  | nil =>
    intro es h
    unfold buildTable at h
    injection h with h'
    subst h'
    exact ⟨rfl, fun i ht _ => absurd ht (by simp)⟩
  | cons tb rest ih =>
    intro es h
    unfold buildTable at h
    cases hs : sweepEntry series r1 r2 r3 ((tb : ℕ) : ℚ) with
    | error m =>
      rw [hs] at h
      exact absurd h (by simp)
    | ok en =>
      rw [hs] at h
      cases hb : buildTable series r1 r2 r3 rest with
      | error m =>
        rw [hb] at h
        exact absurd h (by simp)
      | ok es' =>
        rw [hb] at h
        injection h with h'
        subst h'
        obtain ⟨hlen, hidx⟩ := ih es' hb
        constructor
        · simp [hlen]
        · intro i ht he
          cases i with
          | zero => exact hs
          | succ j => exact hidx j (Nat.lt_of_succ_lt_succ ht) (Nat.lt_of_succ_lt_succ he)

theorem pickBest_spec : ∀ (l : List GEntry) (b : GEntry),
    (pickBest b l = b ∧ ∀ x ∈ l, b.std ≤ x.std) ∨
    (∃ (i : ℕ) (hi : i < l.length),
      pickBest b l = l.get ⟨i, hi⟩ ∧ (l.get ⟨i, hi⟩).std < b.std ∧
      (∀ j (hj : j < l.length), (l.get ⟨i, hi⟩).std ≤ (l.get ⟨j, hj⟩).std) ∧
      (∀ j (hj : j < l.length), j < i → (l.get ⟨i, hi⟩).std < (l.get ⟨j, hj⟩).std)) := by
  intro l
  induction l with
  | nil =>
    intro b
    left
    exact ⟨rfl, by simp⟩
  | cons e rest ih =>
    intro b
    have hfold : pickBest b (e :: rest) = pickBest (if e.std < b.std then e else b) rest := rfl
    by_cases hbe : e.std < b.std
    · rw [hfold, if_pos hbe]
      rcases ih e with ⟨heq, hall⟩ | ⟨i, hi, heq, hlt, hmin, hfirst⟩
      · right
        refine ⟨0, by simp, heq, hbe, ?_, ?_⟩
        · intro j hj
          cases j with
          | zero => exact le_rfl
          | succ k => exact hall _ (List.get_mem rest k (Nat.lt_of_succ_lt_succ hj))
        · intro j hj hj0
          omega
      · right
        refine ⟨i + 1, Nat.succ_lt_succ hi, heq, lt_trans hlt hbe, ?_, ?_⟩
        · intro j hj
          cases j with
          | zero => exact le_of_lt hlt
          | succ k => exact hmin k (Nat.lt_of_succ_lt_succ hj)
        · intro j hj hji
          cases j with
          | zero => exact hlt
          | succ k => exact hfirst k (Nat.lt_of_succ_lt_succ hj) (Nat.lt_of_succ_lt_succ hji)
    · rw [hfold, if_neg hbe]
      rcases ih b with ⟨heq, hall⟩ | ⟨i, hi, heq, hlt, hmin, hfirst⟩
      · left
        refine ⟨heq, ?_⟩
        intro x hx
        rcases List.mem_cons.mp hx with rfl | hx'
        · exact not_lt.mp hbe
        · exact hall x hx'
      · right
        refine ⟨i + 1, Nat.succ_lt_succ hi, heq, hlt, ?_, ?_⟩
        · intro j hj
          cases j with
          | zero => exact le_of_lt (lt_of_lt_of_le hlt (not_lt.mp hbe))
          | succ k => exact hmin k (Nat.lt_of_succ_lt_succ hj)
        · intro j hj hji
          cases j with
          | zero => exact lt_of_lt_of_le hlt (not_lt.mp hbe)
          | succ k => exact hfirst k (Nat.lt_of_succ_lt_succ hj) (Nat.lt_of_succ_lt_succ hji)

/-- "`best` is the first entry of `table` attaining the minimum spread":
it occurs at some index, its spread is a lower bound for every entry's
spread, and every earlier entry has strictly larger spread. -/
def isFirstMinStd (table : List GEntry) (best : GEntry) : Prop :=
  ∃ (i : ℕ) (hi : i < table.length),
    table.get ⟨i, hi⟩ = best ∧
    (∀ j (hj : j < table.length), best.std ≤ (table.get ⟨j, hj⟩).std) ∧
    (∀ j (hj : j < table.length), j < i → best.std < (table.get ⟨j, hj⟩).std)

theorem pickBest_firstMin (h0 : GEntry) (t : List GEntry) :
    isFirstMinStd (h0 :: t) (pickBest h0 t) := by
  rcases pickBest_spec t h0 with ⟨heq, hall⟩ | ⟨i, hi, heq, hlt, hmin, hfirst⟩
  · refine ⟨0, by simp, heq.symm, ?_, ?_⟩
    · intro j hj
      rw [heq]
      cases j with
      | zero => exact le_rfl
      | succ k => exact hall _ (List.get_mem t k (Nat.lt_of_succ_lt_succ hj))
    · intro j hj hji
      omega
  · refine ⟨i + 1, Nat.succ_lt_succ hi, heq.symm, ?_, ?_⟩
    · intro j hj
      rw [heq]
      cases j with
      | zero => exact le_of_lt hlt
      | succ k => exact hmin k (Nat.lt_of_succ_lt_succ hj)
    · intro j hj hji
      rw [heq]
      cases j with
      | zero => exact hlt
      | succ k => exact hfirst k (Nat.lt_of_succ_lt_succ hj) (Nat.lt_of_succ_lt_succ hji)

/-- What the sweep's successful result looks like: all six bounds parse; the
table has exactly 21 entries, the `i`-th carrying `Tb = i` and the three
accumulated GDD values rounded to 2 decimals together with the rounded
population standard deviation; every rounded field lies on the 2-decimal
grid; the stored spread is within 1/200 of the true standard deviation of
the three (rounded) GDD values; and `best` is the first minimum-spread
entry. -/
def gddTableSpec (series : List GRow) (r1 r2 r3 : String × String)
    (table : List GEntry) (best : GEntry) : Prop :=
  ∃ sd1 ed1 sd2 ed2 sd3 ed3,
    parseDate r1.1 = some sd1 ∧ parseDate r1.2 = some ed1 ∧
    parseDate r2.1 = some sd2 ∧ parseDate r2.2 = some ed2 ∧
    parseDate r3.1 = some sd3 ∧ parseDate r3.2 = some ed3 ∧
    table.length = 21 ∧
    (∀ i (hi : i < table.length),
      table.get ⟨i, hi⟩ =
        ⟨(i : ℚ), round2 (gddRaw series (i : ℚ) sd1 ed1),
          round2 (gddRaw series (i : ℚ) sd2 ed2),
          round2 (gddRaw series (i : ℚ) sd3 ed3),
          stdRound2 (round2 (gddRaw series (i : ℚ) sd1 ed1))
            (round2 (gddRaw series (i : ℚ) sd2 ed2))
            (round2 (gddRaw series (i : ℚ) sd3 ed3))⟩) ∧
    (∀ i (hi : i < table.length),
      (100 * (table.get ⟨i, hi⟩).g1).den = 1 ∧
      (100 * (table.get ⟨i, hi⟩).g2).den = 1 ∧
      (100 * (table.get ⟨i, hi⟩).g3).den = 1 ∧
      (100 * (table.get ⟨i, hi⟩).std).den = 1) ∧
    (∀ i (hi : i < table.length),
      |(((table.get ⟨i, hi⟩).std : ℚ) : ℝ) -
        Real.sqrt ((varq (table.get ⟨i, hi⟩).g1 (table.get ⟨i, hi⟩).g2
          (table.get ⟨i, hi⟩).g3 : ℚ) : ℝ)| ≤ 1/200) ∧
    isFirstMinStd table best

/-- C4 (confirmed): whenever the `/gdd_compare` sweep succeeds, its table has
exactly 21 entries in ascending base-temperature order `Tb = 0..20`, each
entry's three accumulated GDD values and its spread are rounded to 2 decimal
places (2-decimal grid, within half a grid step of the exact values), and
`best` is the entry with minimum spread, the first such entry winning
ties. -/
theorem gdd_sweep_table (series : List GRow) (r1 r2 r3 : String × String)
    (table : List GEntry) (best : GEntry)
    (h : gdd_compare series r1 r2 r3 = .ok (table, best)) :
    gddTableSpec series r1 r2 r3 table best := by
  unfold gdd_compare at h
  cases hb : buildTable series r1 r2 r3 (List.range 21) with
  | error m =>
    rw [hb] at h
    exact absurd h (by simp)
  | ok es =>
    rw [hb] at h
    cases es with
    | nil => exact absurd h (by simp)
    | cons e0 rest =>
      injection h with h'
      rw [Prod.mk.injEq] at h'
      obtain ⟨htab, hbest⟩ := h'
      subst htab
      subst hbest
      obtain ⟨hlen, hidx⟩ := buildTable_ok series r1 r2 r3 (List.range 21) (e0 :: rest) hb
      have hlen21 : (e0 :: rest).length = 21 := by simpa using hlen
      have h0 := hidx 0 (by simp) (by omega)
      obtain ⟨sd1, ed1, sd2, ed2, sd3, ed3, hp1, hp2, hp3, hp4, hp5, hp6, _⟩ :=
        sweepEntry_ok _ _ _ _ _ _ h0
      have hentry : ∀ i (hi : i < (e0 :: rest).length),
          (e0 :: rest).get ⟨i, hi⟩ =
            ⟨(i : ℚ), round2 (gddRaw series (i : ℚ) sd1 ed1),
              round2 (gddRaw series (i : ℚ) sd2 ed2),
              round2 (gddRaw series (i : ℚ) sd3 ed3),
              stdRound2 (round2 (gddRaw series (i : ℚ) sd1 ed1))
                (round2 (gddRaw series (i : ℚ) sd2 ed2))
                (round2 (gddRaw series (i : ℚ) sd3 ed3))⟩ := by
        intro i hi
        have hti : i < (List.range 21).length := by
          rw [List.length_range]
          omega
        have hstep := hidx i hti hi
        obtain ⟨sd1', ed1', sd2', ed2', sd3', ed3', hq1, hq2, hq3, hq4, hq5, hq6, hei⟩ :=
          sweepEntry_ok _ _ _ _ _ _ hstep
        rw [hp1] at hq1
        rw [hp2] at hq2
        rw [hp3] at hq3
        rw [hp4] at hq4
        rw [hp5] at hq5
        rw [hp6] at hq6
        obtain rfl : sd1 = sd1' := Option.some.inj hq1
        obtain rfl : ed1 = ed1' := Option.some.inj hq2
        obtain rfl : sd2 = sd2' := Option.some.inj hq3
        obtain rfl : ed2 = ed2' := Option.some.inj hq4
        obtain rfl : sd3 = sd3' := Option.some.inj hq5
        obtain rfl : ed3 = ed3' := Option.some.inj hq6
        have hri : (List.range 21).get ⟨i, hti⟩ = i := by
          simp [List.get_eq_getElem]
        rw [hri] at hei
        exact hei
      refine ⟨sd1, ed1, sd2, ed2, sd3, ed3, hp1, hp2, hp3, hp4, hp5, hp6, hlen21,
        hentry, ?_, ?_, pickBest_firstMin e0 rest⟩
      · intro i hi
        rw [hentry i hi]
        exact ⟨round2_quantized _, round2_quantized _, round2_quantized _,
          stdRound2_quantized _ _ _⟩
      · intro i hi
        rw [hentry i hi]
        exact stdRound2_close _ _ _

/-- The 21-entry table produced by the sweep on the concrete one-day witness
series: `Tb = i` gives accumulated GDD `25 - i` for every range and spread
0. -/
def tableW : List GEntry :=
  (List.range 21).map (fun i =>
    ⟨(i : ℚ), 25 - (i : ℚ), 25 - (i : ℚ), 25 - (i : ℚ), 0⟩)

/-- The best entry of `tableW`: the first of the all-tied spreads. -/
def bestW : GEntry := ⟨0, 25, 25, 25, 0⟩

/-- C4 witness: the sweep-shape theorem applied to a concrete series and
ranges whose table evaluates to `tableW` and best entry to `bestW`. -/
theorem gdd_sweep_table_witness :
    gdd_compare seriesW ("2024-01-01", "2024-01-03") ("2024-01-01", "2024-01-03")
      ("2024-01-01", "2024-01-03") = .ok (tableW, bestW) ∧
    gddTableSpec seriesW ("2024-01-01", "2024-01-03") ("2024-01-01", "2024-01-03")
      ("2024-01-01", "2024-01-03") tableW bestW := by
  have h : gdd_compare seriesW ("2024-01-01", "2024-01-03")
      ("2024-01-01", "2024-01-03") ("2024-01-01", "2024-01-03")
      = .ok (tableW, bestW) := by
    with_unfolding_all rfl
  exact ⟨h, gdd_sweep_table _ _ _ _ _ _ h⟩
